import Mathlib

namespace Kmsctl

/-! Shallow embedding of the core logic of kmsctl: S3 object listing and
transfer (cmd.go, get.go), KMS alias resolution and key management
(the kms command file), and bucket management (the bucket command file).
Provider interactions (AWS S3 and KMS) are modelled by explicit inputs
(the bucket's raw key list in provider order, the alias list) and by an
action trace recording the provider and file-system calls the code
issues, in program order. -/

/-- Go strings.HasPrefix, on character lists. -/
def listHasPre : List Char → List Char → Bool
  | _, [] => true
  | [], _ :: _ => false
  | a :: as, b :: bs => a == b && listHasPre as bs

/-- Go strings.HasPrefix. -/
def strHasPre (s p : String) : Bool := listHasPre s.toList p.toList

/-- Go strings.HasSuffix. -/
def strHasSuffix (s suf : String) : Bool := listHasPre s.toList.reverse suf.toList.reverse

/-- Go strings.TrimPrefix: drop the leading occurrence of p when present,
otherwise return s unchanged. -/
def strTrimPre (s p : String) : String :=
  if strHasPre s p then (s.toList.drop p.toList.length).asString else s

/-- Go strings.TrimLeft: drop all leading characters that are contained in
the cutset (a character set, not a literal substring). -/
def strTrimLeft (s cutset : String) : String :=
  (s.toList.dropWhile (fun c => cutset.toList.contains c)).asString

/-- Go strings.Contains, specialised to the one-character substrings the
program uses (the path separator). -/
def strContainsChar (s : String) (c : Char) : Bool := s.toList.contains c

/-- Go path.Base / filepath.Base for the slash-separated paths the program
handles: strip trailing separators, then keep the last element. -/
def pathBase (p : String) : String :=
  if p = "" then "."
  else
    let cs := p.toList.reverse.dropWhile (fun c => c == '/')
    if cs.isEmpty then "/"
    else ((cs.takeWhile (fun c => c != '/')).reverse).asString

/-- Go path.Dir for already-clean slash-separated paths (where path.Clean
is the identity): everything before the final separator, "." when there is
no separator. -/
def pathDir (p : String) : String :=
  let dirPart := (p.toList.reverse.dropWhile (fun c => c != '/')).reverse
  if dirPart.isEmpty then "."
  else if dirPart == ['/'] then "/"
  else dirPart.dropLast.asString

/-- One provider or file-system call issued by the program, recorded in
program order. -/
inductive Action where
  | compileFilter (pat : String)
  | listBuckets
  | listObjects (bucket pre : String)
  | getObject (bucket key : String)
  | mkdirAll (path : String)
  | writeFile (path : String)
  | expandPath (p : String)
  | putObject (bucket key localPath : String)
  | deleteObject (bucket key : String)
  | deleteBucketCall (name : String)
  | createBucketCall (name : String)
  | listAliases
  | createKeyCall
  | createAliasCall (aliasName : String)
  | deleteAliasCall (aliasName : String)
  | scheduleKeyDeletion (keyId : String)
  | createTempFile (name : String)
  | writeTempFile
  | runEditor (editor : String)
  | removeTempFile (name : String)
  deriving Repr, DecidableEq

/-- The error outcomes of the embedded operations. Dereferencing an absent
optional value (a nil pointer in the source) is modelled as the error
outcome nilDeref. -/
inductive Err where
  | invalidFilter (pat : String)
  | bucketNotFound (bucket : String)
  | noInput
  | bucketNotEmpty
  | alreadyExists
  | kmsNotFound
  | nilDeref
  | provider (what : String)
  | tempFileFail
  | writeFail
  | editorFail
  deriving Repr, DecidableEq

/-- Modelled provider behaviour: S3 ListObjects returns the bucket's keys
that begin with the requested key prefix, in stored order. The bucket's
raw contents are the explicit input store. -/
def s3ListObjects (store : List String) (pre : String) : List String :=
  store.filter (fun k => strHasPre k pre)

/-- cmd.go listBucketKeys, lines 723-729: the loop that drops every
response entry whose key ends in the separator ("filter out any keys which
are directories") and keeps the rest in order. -/
def dirMarkerFilter : List String → List String
  | [] => []
  | x :: xs => if strHasSuffix x "/" then dirMarkerFilter xs else x :: dirMarkerFilter xs

/-- cmd.go listBucketKeys, lines 712-732: a single ListObjects call scoped
to the key prefix, then the directory-marker filter. -/
def listBucketKeys (store : List String) (pre : String) : List String :=
  dirMarkerFilter (s3ListObjects store pre)

/-- cmd.go sizeOfBucket, lines 735-742: the number of listed keys under
the empty prefix. -/
def sizeOfBucket (store : List String) : Nat :=
  (listBucketKeys store "").length

/-- cmd.go getPaths, lines 270-276: the command arguments, or a single
empty path when none were given. -/
def getPaths (args : List String) : List String :=
  if args.length ≤ 0 then [""] else args

/-- cmd.go listFiles inner loop, lines 412-433: an entry is skipped when
the key with the path argument trimmed off its front still contains a
separator and recursive mode is off; the rest are emitted in order. -/
def listFilesLoop (p : String) (recursive : Bool) : List String → List String
  | [] => []
  | k :: rest =>
    if strContainsChar (strTrimPre k p) '/' && !recursive then listFilesLoop p recursive rest
    else k :: listFilesLoop p recursive rest

/-- cmd.go listFiles, lines 397-437: for each path argument, list the
bucket keys under it and emit the entries surviving the recursion check. -/
def listFiles (store : List String) (recursive : Bool) (args : List String) : List String :=
  (getPaths args).flatMap (fun p => listFilesLoop p recursive (listBucketKeys store p))

/-- cmd.go getFiles flatten step, lines 503-506: when the key holds a
separator and flatten is set, the local file name becomes the output
directory joined with the key's base name; otherwise it is the key. -/
def destFilename (outdir key : String) (flatten : Bool) : String :=
  if strContainsChar key '/' && flatten then outdir ++ "/" ++ pathBase key else key

/-- cmd.go getFiles inner loop, lines 487-528: skip the key when it
contains a separator (the full key, no trimming) and recursive mode is
off; skip it when the filter does not match; otherwise fetch the object,
ensure the directory structure and write the file. -/
def getFilesLoop (m : String → Bool) (bucket outdir : String) (flatten recursive : Bool) :
    List String → List Action
  | [] => []
  | key :: rest =>
    if strContainsChar key '/' && !recursive then getFilesLoop m bucket outdir flatten recursive rest
    else if !(m key) then getFilesLoop m bucket outdir flatten recursive rest
    else
      Action.getObject bucket key ::
      Action.mkdirAll (outdir ++ "/" ++ pathDir (destFilename outdir key flatten)) ::
      Action.writeFile (outdir ++ "/" ++ destFilename outdir key flatten) ::
      getFilesLoop m bucket outdir flatten recursive rest

/-- cmd.go getFiles, lines 456-532: compile the filter (via the external
regexp engine, modelled by the compile argument), failing before any other
call on a malformed pattern; create the output directory; then, for each
path argument with a leading separator dropped, list the bucket keys and
process each surviving entry. -/
def getFiles (compile : String → Option (String → Bool)) (store : List String)
    (bucket outdir pat : String) (flatten recursive : Bool) (args : List String) :
    List Action × Except Err Unit :=
  match compile pat with
  | none => ([Action.compileFilter pat], Except.error (Err.invalidFilter pat))
  | some m =>
    (Action.compileFilter pat :: Action.mkdirAll outdir ::
      (getPaths args).flatMap (fun p =>
        let p2 := if strHasPre p "/" then strTrimPre p "/" else p
        Action.listObjects bucket p2 ::
          getFilesLoop m bucket outdir flatten recursive (listBucketKeys store p2)),
     Except.ok ())

/-- cmd.go hasBucket, lines 678-690: list the buckets and search for the
name. -/
def hasBucket (buckets : List String) (name : String) : Bool :=
  buckets.any (fun x => name == x)

/-- cmd.go putFiles, lines 535-584: require the bucket to exist, then at
least one argument; then expand each path and upload each file under its
relative path, or its base name when flatten is set. -/
def putFiles (buckets : List String) (expand : String → List String)
    (bucket kmsId : String) (flatten : Bool) (args : List String) :
    List Action × Except Err Unit :=
  if hasBucket buckets bucket = false then
    ([Action.listBuckets], Except.error (Err.bucketNotFound bucket))
  else if args.length ≤ 0 then
    ([Action.listBuckets], Except.error Err.noInput)
  else
    (Action.listBuckets ::
      args.flatMap (fun p =>
        Action.expandPath p ::
          (expand p).map (fun f =>
            Action.putObject bucket (if flatten then pathBase f else f) f)),
     Except.ok ())

/-- createBucket from the bucket command file, lines 45-67: fail when the
bucket already exists, otherwise call the provider's bucket creation. -/
def createBucket (buckets : List String) (name : String) : List Action × Except Err Unit :=
  if hasBucket buckets name then
    ([Action.listBuckets], Except.error Err.alreadyExists)
  else
    ([Action.listBuckets, Action.createBucketCall name], Except.ok ())

/-- deleteBucket from the bucket command file, lines 69-117: fail when the
bucket does not exist; count the listed objects; fail when the count is
positive and force is off; when the count is positive, list again and
delete each listed object individually; then delete the bucket. -/
def deleteBucket (buckets store : List String) (name : String) (force : Bool) :
    List Action × Except Err Unit :=
  if hasBucket buckets name = false then
    ([Action.listBuckets], Except.error (Err.bucketNotFound name))
  else
    let count := sizeOfBucket store
    if 0 < count ∧ force = false then
      ([Action.listBuckets, Action.listObjects name ""], Except.error Err.bucketNotEmpty)
    else
      let delTrace :=
        if 0 < count then
          Action.listObjects name "" ::
            (listBucketKeys store "").map (fun k => Action.deleteObject name k)
        else []
      (Action.listBuckets :: Action.listObjects name "" ::
        (delTrace ++ [Action.deleteBucketCall name]), Except.ok ())

/-- kms.AliasListEntry: an alias display name and an optional target key
identifier (a pointer field in the provider SDK). -/
structure AliasListEntry where
  aliasName : String
  targetKeyId : Option String
  deriving Repr, DecidableEq

/-- getKmsAlias from the kms command file, lines 217-235: scan the alias
list for the first entry whose display name, with the characters of the
cutset "alias/" trimmed from its left (strings.TrimLeft), equals the
requested name; the not-found error when none matches. -/
def getKmsAlias (aliases : List AliasListEntry) (name : String) : Except Err AliasListEntry :=
  match aliases with
  | [] => Except.error Err.kmsNotFound
  | x :: xs =>
    if strTrimLeft x.aliasName "alias/" = name then Except.ok x
    else getKmsAlias xs name

/-- hasKmsAlias from the kms command file, lines 202-212: defined through
getKmsAlias, mapping the not-found error to false. -/
def hasKmsAlias (aliases : List AliasListEntry) (name : String) : Except Err Bool :=
  match getKmsAlias aliases name with
  | Except.error e => if e = Err.kmsNotFound then Except.ok false else Except.error e
  | Except.ok _ => Except.ok true

/-- createKey from the kms command file, lines 111-160: when an alias with
the name already exists, log a message and return nil (success) without
creating anything; otherwise create the key and then the alias. -/
def createKey (aliases : List AliasListEntry) (name : String) : List Action × Except Err Unit :=
  match hasKmsAlias aliases name with
  | Except.error e => ([Action.listAliases], Except.error e)
  | Except.ok true => ([Action.listAliases], Except.ok ())
  | Except.ok false =>
    ([Action.listAliases, Action.createKeyCall, Action.createAliasCall ("alias/" ++ name)],
     Except.ok ())

/-- Dereference of a pointer-typed optional field: the nilDeref outcome
when the value is absent. -/
def optDeref (o : Option String) : Except Err String :=
  match o with
  | some s => Except.ok s
  | none => Except.error Err.nilDeref

/-- deleteKey from the kms command file, lines 164-197: resolve the alias,
delete the alias, then, when scheduling is on, dereference the entry's
target key id for ScheduleKeyDeletion; finally dereference it again for
the success log, in every case. -/
def deleteKey (aliases : List AliasListEntry) (name : String) (sched : Bool) :
    List Action × Except Err Unit :=
  match getKmsAlias aliases name with
  | Except.error e => ([Action.listAliases], Except.error e)
  | Except.ok a =>
    let tr := [Action.listAliases, Action.deleteAliasCall a.aliasName]
    if sched then
      match optDeref a.targetKeyId with
      | Except.error e => (tr, Except.error e)
      | Except.ok kid =>
        match optDeref a.targetKeyId with
        | Except.error e => (tr ++ [Action.scheduleKeyDeletion kid], Except.error e)
        | Except.ok _ => (tr ++ [Action.scheduleKeyDeletion kid], Except.ok ())
    else
      match optDeref a.targetKeyId with
      | Except.error e => (tr, Except.error e)
      | Except.ok _ => (tr, Except.ok ())

/-- cmd.go inlineEditFile, lines 612-637: create the temporary file (on
failure nothing else happens); from then on the deferred removal runs at
every return: after a failed write, after a failed editor run, and after a
successful one. -/
def inlineEditFile (tmpOk writeOk editorOk : Bool) (filename editor : String) :
    List Action × Except Err Unit :=
  if tmpOk = false then
    ([Action.createTempFile filename], Except.error Err.tempFileFail)
  else if writeOk = false then
    ([Action.createTempFile filename, Action.writeTempFile, Action.removeTempFile filename],
     Except.error Err.writeFail)
  else if editorOk = false then
    ([Action.createTempFile filename, Action.writeTempFile, Action.runEditor editor,
      Action.removeTempFile filename], Except.error Err.editorFail)
  else
    ([Action.createTempFile filename, Action.writeTempFile, Action.runEditor editor,
      Action.removeTempFile filename], Except.ok ())

/-- cmd.go editFile, lines 587-609: for each argument, fetch the object's
content and run the inline edit, stopping on the first failure. The
fetched or edited content is never written back to the bucket. -/
def editFile (fetchOk tmpOk writeOk editorOk : String → Bool) (bucket editor : String) :
    List String → List Action × Except Err Unit
  | [] => ([], Except.ok ())
  | x :: rest =>
    if fetchOk x = false then
      ([Action.getObject bucket x], Except.error (Err.provider x))
    else
      let r := inlineEditFile (tmpOk x) (writeOk x) (editorOk x) x editor
      match r.2 with
      | Except.error e => (Action.getObject bucket x :: r.1, Except.error e)
      | Except.ok _ =>
        let r2 := editFile fetchOk tmpOk writeOk editorOk bucket editor rest
        (Action.getObject bucket x :: (r.1 ++ r2.1), r2.2)

/-- The keys fetched from the bucket in a trace, in order. -/
def fetchedKeys (tr : List Action) : List String :=
  tr.filterMap (fun a =>
    match a with
    | Action.getObject _ k => some k
    | _ => none)

/-- Whether an action is a filter compilation. -/
def isCompileAction : Action → Bool
  | Action.compileFilter _ => true
  | _ => false

/-- The number of filter compilations in a trace. -/
def compileCount (tr : List Action) : Nat :=
  (tr.filter isCompileAction).length

/-- Whether an action is an upload to the bucket. -/
def isPutAction : Action → Bool
  | Action.putObject _ _ _ => true
  | _ => false

/-- The directory-marker loop of listBucketKeys is the filter keeping keys
that do not end in the separator. -/
theorem dirMarkerFilter_eq_filter (l : List String) :
    dirMarkerFilter l = l.filter (fun k => !(strHasSuffix k "/")) := by
  induction l with
  | nil => rfl
  | cons x xs ih =>
    by_cases h : strHasSuffix x "/" = true
    · simp [dirMarkerFilter, h, ih]
    · simp [dirMarkerFilter, h, ih]

/-- C4: the traversal engine (listBucketKeys) never includes an entry whose
key ends with the path separator: every pseudo-directory marker in the
provider's response is removed and every other entry is preserved in
provider order (the result is exactly the order-preserving filter of the
response). -/
theorem c4_no_directory_markers (store : List String) (pre : String) :
    ((listBucketKeys store pre).all (fun k => !(strHasSuffix k "/"))) = true
    ∧ listBucketKeys store pre
        = (s3ListObjects store pre).filter (fun k => !(strHasSuffix k "/")) := by
  have h := dirMarkerFilter_eq_filter (s3ListObjects store pre)
  refine ⟨?_, h⟩
  rw [listBucketKeys, h]
  simp only [List.all_eq_true]
  intro k hk
  exact (List.mem_filter.mp hk).2

/-- C1: evaluation at the claim's own input. listFiles trims the path
argument off the key before the separator test, so with the path argument
"a/" and non-recursive mode it emits exactly "a/1.txt"; getFiles tests the
untrimmed key, which always contains the separator under the path argument
"a/", so it fetches nothing (the claim says "a/1.txt" survives in both). -/
theorem c1_recursion_filter_divergence :
    listFiles ["a/1.txt", "a/b/2.txt"] false ["a/"] = ["a/1.txt"]
    ∧ fetchedKeys (getFiles (fun _ => some (fun _ => true)) ["a/1.txt", "a/b/2.txt"]
        "bucket" "out" ".*" false false ["a/"]).1 = [] :=
  ⟨rfl, rfl⟩

/-- C2: evaluation of the download destinations. With flatten on and the
key "dir/sub/file.txt" under output directory "secrets", getFiles creates
"secrets/secrets" and writes to "secrets/secrets/file.txt" (the output
directory is duplicated, not "secrets/file.txt" as the claim states); with
flatten off it creates "secrets/dir/sub" and writes to
"secrets/dir/sub/file.txt" as the claim states. -/
theorem c2_flatten_destination :
    (getFiles (fun _ => some (fun _ => true)) ["dir/sub/file.txt"]
        "b" "secrets" ".*" true true []).1
      = [Action.compileFilter ".*", Action.mkdirAll "secrets", Action.listObjects "b" "",
         Action.getObject "b" "dir/sub/file.txt", Action.mkdirAll "secrets/secrets",
         Action.writeFile "secrets/secrets/file.txt"]
    ∧ (getFiles (fun _ => some (fun _ => true)) ["dir/sub/file.txt"]
        "b" "secrets" ".*" false true []).1
      = [Action.compileFilter ".*", Action.mkdirAll "secrets", Action.listObjects "b" "",
         Action.getObject "b" "dir/sub/file.txt", Action.mkdirAll "secrets/dir/sub",
         Action.writeFile "secrets/dir/sub/file.txt"] :=
  ⟨rfl, rfl⟩

/-- C3: evaluation of alias normalization. getKmsAlias normalizes with
strings.TrimLeft over the character set of "alias/", which strips every
leading character drawn from that set: "alias/ssl" normalizes to "", so a
lookup of "ssl" on a list containing exactly that alias fails with the
not-found error, where the claim says it must succeed. -/
theorem c3_alias_cutset_trim :
    strTrimLeft "alias/ssl" "alias/" = ""
    ∧ getKmsAlias [⟨"alias/ssl", some "k1"⟩] "ssl" = Except.error Err.kmsNotFound :=
  ⟨rfl, rfl⟩

/-- C5 counterexample: an existing bucket whose only object is the
directory marker "dir/" contains at least one object, yet deleteBucket
without force does not fail with the bucket-not-empty error: sizeOfBucket
counts only listed (non-marker) keys, so the code proceeds and issues the
bucket deletion call. -/
theorem c5_marker_counterexample :
    deleteBucket ["b"] ["dir/"] "b" false
      = ([Action.listBuckets, Action.listObjects "b" "", Action.deleteBucketCall "b"],
         Except.ok ())
    ∧ (deleteBucket ["b"] ["dir/"] "b" false).2 ≠ Except.error Err.bucketNotEmpty :=
  ⟨rfl, fun h => nomatch h⟩

/-- C5 amended: for an existing bucket, in terms of listed objects (keys
surviving the directory-marker filter): when some listed object exists and
force is off, deleteBucket fails with the bucket-not-empty error having
issued no deletion call; when some listed object exists and force is on,
it deletes every listed object individually and then the bucket; when no
listed object exists, the per-object phase is skipped and only the bucket
is deleted. -/
theorem c5_delete_bucket_listed (buckets store : List String) (name : String) (force : Bool)
    (hb : hasBucket buckets name = true) :
    (listBucketKeys store "" ≠ [] → force = false →
        deleteBucket buckets store name force
          = ([Action.listBuckets, Action.listObjects name ""],
             Except.error Err.bucketNotEmpty))
    ∧ (listBucketKeys store "" ≠ [] → force = true →
        deleteBucket buckets store name force
          = (Action.listBuckets :: Action.listObjects name "" :: Action.listObjects name "" ::
              ((listBucketKeys store "").map (fun k => Action.deleteObject name k)
                ++ [Action.deleteBucketCall name]), Except.ok ()))
    ∧ (listBucketKeys store "" = [] →
        deleteBucket buckets store name force
          = ([Action.listBuckets, Action.listObjects name "", Action.deleteBucketCall name],
             Except.ok ())) := by
  have hpos : (0 < sizeOfBucket store) ↔ listBucketKeys store "" ≠ [] := by
    simp [sizeOfBucket, List.length_pos]
  refine ⟨?_, ?_, ?_⟩
  · intro h1 h2
    simp [deleteBucket, hb, hpos.mpr h1, h2]
  · intro h1 h2
    simp [deleteBucket, hb, hpos.mpr h1, h2]
  · intro h1
    have : ¬ (0 < sizeOfBucket store) := by simp [hpos, h1]
    simp [deleteBucket, hb, this, h1]

/-- C5 witness: the three branches of the amended statement at concrete
buckets. -/
theorem c5_delete_bucket_listed_witness :
    deleteBucket ["b"] ["x.txt"] "b" false
      = ([Action.listBuckets, Action.listObjects "b" ""], Except.error Err.bucketNotEmpty)
    ∧ deleteBucket ["b"] ["x.txt"] "b" true
      = ([Action.listBuckets, Action.listObjects "b" "", Action.listObjects "b" "",
          Action.deleteObject "b" "x.txt", Action.deleteBucketCall "b"], Except.ok ())
    ∧ deleteBucket ["b"] [] "b" true
      = ([Action.listBuckets, Action.listObjects "b" "", Action.deleteBucketCall "b"],
         Except.ok ()) := by
  refine ⟨?_, ?_, ?_⟩
  · have h := (c5_delete_bucket_listed ["b"] ["x.txt"] "b" false rfl).1 (by decide) rfl
    rw [h]
  · have h := (c5_delete_bucket_listed ["b"] ["x.txt"] "b" true rfl).2.1 (by decide) rfl
    rw [h]
    rfl
  · have h := (c5_delete_bucket_listed ["b"] [] "b" true rfl).2.2 rfl
    rw [h]

/-- C6: putFiles checks its preconditions before doing any work: with a
bucket absent from the bucket list it fails with the bucket-not-found
error and its trace holds only the bucket listing (no expansion, no read,
no upload); with the bucket present but no path arguments it fails with
the no-input error, again with only the bucket listing in the trace. -/
theorem c6_put_preconditions :
    (∀ (buckets : List String) (expand : String → List String) (bucket kmsId : String)
        (flatten : Bool) (args : List String), hasBucket buckets bucket = false →
        putFiles buckets expand bucket kmsId flatten args
          = ([Action.listBuckets], Except.error (Err.bucketNotFound bucket)))
    ∧ (∀ (buckets : List String) (expand : String → List String) (bucket kmsId : String)
        (flatten : Bool), hasBucket buckets bucket = true →
        putFiles buckets expand bucket kmsId flatten []
          = ([Action.listBuckets], Except.error Err.noInput)) := by
  constructor
  · intro buckets expand bucket kmsId flatten args h
    simp [putFiles, h]
  · intro buckets expand bucket kmsId flatten h
    simp [putFiles, h]

/-- C6 witness: both failure branches at concrete inputs. -/
theorem c6_put_preconditions_witness :
    putFiles [] (fun _ => ["f"]) "b" "k" false ["f"]
      = ([Action.listBuckets], Except.error (Err.bucketNotFound "b"))
    ∧ putFiles ["b"] (fun _ => ["f"]) "b" "k" false []
      = ([Action.listBuckets], Except.error Err.noInput) :=
  ⟨c6_put_preconditions.1 [] (fun _ => ["f"]) "b" "k" false ["f"] rfl,
   c6_put_preconditions.2 ["b"] (fun _ => ["f"]) "b" "k" false rfl⟩

/-- fetchedKeys distributes over trace concatenation. -/
theorem fetchedKeys_append (l1 l2 : List Action) :
    fetchedKeys (l1 ++ l2) = fetchedKeys l1 ++ fetchedKeys l2 := by
  simp [fetchedKeys, List.filterMap_append]

/-- fetchedKeys records the key of a leading fetch action. -/
theorem fetchedKeys_cons_get (b k : String) (tr : List Action) :
    fetchedKeys (Action.getObject b k :: tr) = k :: fetchedKeys tr := rfl

/-- fetchedKeys ignores a leading directory creation. -/
theorem fetchedKeys_cons_mkdir (p : String) (tr : List Action) :
    fetchedKeys (Action.mkdirAll p :: tr) = fetchedKeys tr := rfl

/-- fetchedKeys ignores a leading file write. -/
theorem fetchedKeys_cons_write (p : String) (tr : List Action) :
    fetchedKeys (Action.writeFile p :: tr) = fetchedKeys tr := rfl

/-- fetchedKeys ignores a leading listing call. -/
theorem fetchedKeys_cons_listObjects (b p : String) (tr : List Action) :
    fetchedKeys (Action.listObjects b p :: tr) = fetchedKeys tr := rfl

/-- fetchedKeys ignores a leading filter compilation. -/
theorem fetchedKeys_cons_compile (p : String) (tr : List Action) :
    fetchedKeys (Action.compileFilter p :: tr) = fetchedKeys tr := rfl

/-- The keys fetched by the getFiles inner loop are exactly the listed
keys surviving the full-key recursion test and then the pattern test. -/
theorem fetchedKeys_getFilesLoop (m : String → Bool) (bucket outdir : String)
    (flatten recursive : Bool) (keys : List String) :
    fetchedKeys (getFilesLoop m bucket outdir flatten recursive keys)
      = (keys.filter (fun k => !(strContainsChar k '/' && !recursive))).filter m := by
  cases recursive with
  | false =>
    induction keys with
    | nil => rfl
    | cons k ks ih =>
      cases hc : strContainsChar k '/' with
      | true => simp [getFilesLoop, hc, ih]
      | false =>
        by_cases h2 : m k = true
        · simp [getFilesLoop, hc, h2, ih, fetchedKeys_cons_get, fetchedKeys_cons_mkdir,
            fetchedKeys_cons_write]
        · simp [getFilesLoop, hc, h2, ih]
  | true =>
    induction keys with
    | nil => rfl
    | cons k ks ih =>
      by_cases h2 : m k = true
      · simp [getFilesLoop, h2, ih, fetchedKeys_cons_get, fetchedKeys_cons_mkdir,
          fetchedKeys_cons_write]
      · simp [getFilesLoop, h2, ih]

/-- compileCount ignores a leading action that is not a compilation. -/
theorem compileCount_cons_not (a : Action) (tr : List Action) (h : isCompileAction a = false) :
    compileCount (a :: tr) = compileCount tr := by
  simp [compileCount, List.filter_cons, h]

/-- compileCount counts a leading compilation. -/
theorem compileCount_cons_compile (p : String) (tr : List Action) :
    compileCount (Action.compileFilter p :: tr) = compileCount tr + 1 := by
  simp [compileCount, List.filter_cons, isCompileAction]

/-- compileCount ignores a leading listing call. -/
theorem compileCount_cons_listObjects (b p : String) (tr : List Action) :
    compileCount (Action.listObjects b p :: tr) = compileCount tr :=
  compileCount_cons_not _ _ rfl

/-- compileCount ignores a leading directory creation. -/
theorem compileCount_cons_mkdir (p : String) (tr : List Action) :
    compileCount (Action.mkdirAll p :: tr) = compileCount tr :=
  compileCount_cons_not _ _ rfl

/-- The getFiles inner loop issues no filter compilation. -/
theorem compileCount_getFilesLoop (m : String → Bool) (bucket outdir : String)
    (flatten recursive : Bool) (keys : List String) :
    compileCount (getFilesLoop m bucket outdir flatten recursive keys) = 0 := by
  cases recursive with
  | false =>
    induction keys with
    | nil => rfl
    | cons k ks ih =>
      cases hc : strContainsChar k '/' with
      | true => simp [getFilesLoop, hc, ih]
      | false =>
        by_cases h2 : m k = true
        · simp [getFilesLoop, hc, h2, compileCount_cons_not, isCompileAction, ih]
        · simp [getFilesLoop, hc, h2, ih]
  | true =>
    induction keys with
    | nil => rfl
    | cons k ks ih =>
      by_cases h2 : m k = true
      · simp [getFilesLoop, h2, compileCount_cons_not, isCompileAction, ih]
      · simp [getFilesLoop, h2, ih]

/-- compileCount distributes over trace concatenation. -/
theorem compileCount_append (l1 l2 : List Action) :
    compileCount (l1 ++ l2) = compileCount l1 + compileCount l2 := by
  simp [compileCount, List.filter_append]

/-- The per-path body of getFiles issues no filter compilation. -/
theorem compileCount_getFiles_paths (m : String → Bool) (bucket outdir : String)
    (flatten recursive : Bool) (store : List String) (paths : List String) :
    compileCount (paths.flatMap (fun p =>
        let p2 := if strHasPre p "/" then strTrimPre p "/" else p
        Action.listObjects bucket p2 ::
          getFilesLoop m bucket outdir flatten recursive (listBucketKeys store p2))) = 0 := by
  induction paths with
  | nil => rfl
  | cons p ps ih =>
    simp only [List.flatMap_cons, compileCount_append, ih]
    rw [compileCount_cons_listObjects, compileCount_getFilesLoop]

/-- The keys fetched across the path arguments of getFiles. -/
theorem fetchedKeys_getFiles_paths (m : String → Bool) (bucket outdir : String)
    (flatten recursive : Bool) (store : List String) (paths : List String) :
    fetchedKeys (paths.flatMap (fun p =>
        let p2 := if strHasPre p "/" then strTrimPre p "/" else p
        Action.listObjects bucket p2 ::
          getFilesLoop m bucket outdir flatten recursive (listBucketKeys store p2)))
      = paths.flatMap (fun p =>
          let p2 := if strHasPre p "/" then strTrimPre p "/" else p
          ((listBucketKeys store p2).filter
              (fun k => !(strContainsChar k '/' && !recursive))).filter m) := by
  induction paths with
  | nil => rfl
  | cons p ps ih =>
    simp only [List.flatMap_cons, fetchedKeys_append, ih, fetchedKeys_cons_listObjects,
      fetchedKeys_getFilesLoop]

/-- C7: in getFiles the pattern is compiled exactly once per invocation; a
malformed pattern (the regexp engine returns no matcher) fails with the
invalid-filter error with nothing but the compilation in the trace, so no
provider listing or fetch has happened; a well-formed pattern keeps, among
the listed keys surviving the recursion test, exactly those whose full key
matches it. -/
theorem c7_pattern_filter (compile : String → Option (String → Bool)) (store : List String)
    (bucket outdir pat : String) (flatten recursive : Bool) (args : List String) :
    (compile pat = none →
        getFiles compile store bucket outdir pat flatten recursive args
          = ([Action.compileFilter pat], Except.error (Err.invalidFilter pat)))
    ∧ (∀ m, compile pat = some m →
        compileCount (getFiles compile store bucket outdir pat flatten recursive args).1 = 1
        ∧ fetchedKeys (getFiles compile store bucket outdir pat flatten recursive args).1
            = (getPaths args).flatMap (fun p =>
                let p2 := if strHasPre p "/" then strTrimPre p "/" else p
                ((listBucketKeys store p2).filter
                    (fun k => !(strContainsChar k '/' && !recursive))).filter m)) := by
  constructor
  · intro h
    simp [getFiles, h]
  · intro m h
    constructor
    · simp only [getFiles, h]
      rw [compileCount_cons_compile, compileCount_cons_mkdir, compileCount_getFiles_paths]
    · simp only [getFiles, h]
      rw [fetchedKeys_cons_compile, fetchedKeys_cons_mkdir, fetchedKeys_getFiles_paths]

/-- C7 witness: a malformed pattern fails with only the compilation done;
a suffix-matching pattern over the keys "a.txt" and "a.bin" keeps exactly
"a.txt". -/
theorem c7_pattern_filter_witness :
    getFiles (fun _ => none) ["a.txt"] "b" "o" "(" false true []
      = ([Action.compileFilter "("], Except.error (Err.invalidFilter "("))
    ∧ fetchedKeys (getFiles (fun _ => some (fun s => strHasSuffix s ".txt"))
        ["a.txt", "a.bin"] "b" "o" "pat" false true []).1 = ["a.txt"] := by
  constructor
  · exact (c7_pattern_filter (fun _ => none) ["a.txt"] "b" "o" "(" false true []).1 rfl
  · have h := ((c7_pattern_filter (fun _ => some (fun s => strHasSuffix s ".txt"))
        ["a.txt", "a.bin"] "b" "o" "pat" false true []).2 (fun s => strHasSuffix s ".txt") rfl).2
    rw [h]
    rfl

/-- C8 counterexample: createKey on a name whose alias already exists
returns success (after logging), not the already-exists error; its trace
holds only the alias listing, so nothing was created. -/
theorem c8_duplicate_key_counterexample :
    createKey [⟨"alias/foo", some "k"⟩] "foo" = ([Action.listAliases], Except.ok ())
    ∧ (createKey [⟨"alias/foo", some "k"⟩] "foo").2 ≠ Except.error Err.alreadyExists :=
  ⟨rfl, fun h => nomatch h⟩

/-- C8 amended: createKey invoked with a name for which a key alias
already exists returns success without creating a key or alias (its trace
holds only the alias listing), while createBucket invoked with the name of
an existing bucket returns the already-exists error without calling the
provider's bucket creation. -/
theorem c8_create_amended :
    (∀ (aliases : List AliasListEntry) (name : String),
        hasKmsAlias aliases name = Except.ok true →
        createKey aliases name = ([Action.listAliases], Except.ok ()))
    ∧ (∀ (buckets : List String) (name : String),
        hasBucket buckets name = true →
        createBucket buckets name = ([Action.listBuckets], Except.error Err.alreadyExists)) := by
  constructor
  · intro aliases name h
    simp [createKey, h]
  · intro buckets name h
    simp [createBucket, h]

/-- C8 witness: both creation operations at concrete existing resources. -/
theorem c8_create_amended_witness :
    createKey [⟨"alias/foo", some "k"⟩] "foo" = ([Action.listAliases], Except.ok ())
    ∧ createBucket ["b"] "b" = ([Action.listBuckets], Except.error Err.alreadyExists) :=
  ⟨c8_create_amended.1 [⟨"alias/foo", some "k"⟩] "foo" rfl,
   c8_create_amended.2 ["b"] "b" rfl⟩

/-- The inline edit never uploads anything, whatever the outcome. -/
theorem inlineEditFile_no_put (t w e : Bool) (f ed : String) :
    ((inlineEditFile t w e f ed).1.all (fun a => !(isPutAction a))) = true := by
  cases t <;> cases w <;> cases e <;> rfl

/-- C9: once the temporary file has been created, the trace of the inline
edit ends with its removal on every path (failed write, failed editor run,
success), so the temporary file is deleted after the editor exits
regardless of success or failure; and the whole edit operation issues no
upload to the bucket, so the remote object is unchanged. -/
theorem c9_edit_cleanup_frame :
    (∀ (writeOk editorOk : Bool) (filename editor : String),
        (inlineEditFile true writeOk editorOk filename editor).1.getLast?
          = some (Action.removeTempFile filename))
    ∧ (∀ (fetchOk tmpOk writeOk editorOk : String → Bool) (bucket editor : String)
        (args : List String),
        ((editFile fetchOk tmpOk writeOk editorOk bucket editor args).1.all
            (fun a => !(isPutAction a))) = true) := by
  constructor
  · intro w e f ed
    cases w <;> cases e <;> rfl
  · intro fOk tOk wOk eOk bucket ed args
    induction args with
    | nil => rfl
    | cons x rest ih =>
      by_cases hf : fOk x = false
      · simp [editFile, hf, isPutAction]
      · cases htk : tOk x <;> cases hwk : wOk x <;> cases hek : eOk x <;>
          simp_all [editFile, inlineEditFile, isPutAction]

/-- C10: alias resolution does not apply the skip-unusable-aliases rule of
listing: getKmsAlias can return an entry whose target key id is absent
(first conjunct, a concrete instance), and deleteKey, which dereferences
that target key id without a presence check in the key-deletion scheduling
and in the success log, completes without accessing an absent optional
value exactly when the first name-matching alias carries a present target
key id. -/
theorem c10_delete_key_nil_guard :
    getKmsAlias [⟨"alias/mykey", none⟩] "mykey" = Except.ok ⟨"alias/mykey", none⟩
    ∧ (∀ (aliases : List AliasListEntry) (name : String) (sched : Bool)
        (entry : AliasListEntry),
        getKmsAlias aliases name = Except.ok entry →
        ((deleteKey aliases name sched).2 = Except.ok () ↔ entry.targetKeyId.isSome = true)) := by
  constructor
  · rfl
  · intro aliases name sched entry h
    cases entry with
    | mk an tk =>
      cases tk <;> cases sched <;> simp [deleteKey, h, optDeref]

/-- C10 witness: with a present target key id, deleteKey completes. -/
theorem c10_delete_key_nil_guard_witness :
    (deleteKey [⟨"alias/mykey", some "k1"⟩] "mykey" true).2 = Except.ok () :=
  (c10_delete_key_nil_guard.2 [⟨"alias/mykey", some "k1"⟩] "mykey" true
      ⟨"alias/mykey", some "k1"⟩ rfl).mpr rfl

end Kmsctl
